import Mathlib

/-!
# LogoGrid — verification of the logo resolution pipeline

A shallow embedding of the logo resolution pipeline of the `logogrid`
repository, together with theorems checking the natural-language
specification against it.

The embedding covers, faithfully to the Python source:

* `app/scraper/placeholder_generator.py` — `PlaceholderGenerator`
  (including a full executable MD5 implementation, since the hue of a
  placeholder is derived from the MD5 digest of the domain);
* `app/scraper/image_processor.py` — `ImageProcessor.process_logo`;
* `app/scraper/logo_extractor.py` — `LogoExtractor` and its strategy
  cascade;
* `app/refresh.py` — `LogoRefresher` (`refresh_all`, `refresh_single`,
  `_process_site`, `_get_fallback_logo`).

Network and filesystem effects are modelled by explicit oracles
(functions from URL to an optional response) and by returning the data
that the Python code would write, rather than writing it.
-/

namespace LogoGrid

/-! ## Python-style string and option helpers

All string manipulation is implemented by structural recursion over
character lists, so that every definition in this file reduces inside the
kernel (witnesses and counterexamples are checked by `decide`/`rfl`). -/

/-- Python truthiness of an optional string: `None` and `""` are falsy. -/
def truthy : Option String → Bool
  | none => false
  | some s => s ≠ ""

/-- Whether `needle` is an initial segment of `hay`. -/
def charsStartWith (hay needle : List Char) : Bool :=
  match hay, needle with
  | _, [] => true
  | [], _ :: _ => false
  | b :: bs, a :: as => a == b && charsStartWith bs as

/-- Whether `needle` occurs as a contiguous run inside `hay`. -/
def charsContain (hay needle : List Char) : Bool :=
  match hay with
  | [] => needle.isEmpty
  | _ :: rest => charsStartWith hay needle || charsContain rest needle

/-- Substring test, modelling Python's `needle in hay`. -/
def strContains (hay needle : String) : Bool :=
  charsContain hay.data needle.data

/-- Embeds `str.startswith`. -/
def strStartsWith (s pat : String) : Bool :=
  charsStartWith s.data pat.data

/-- Embeds `str.endswith`. -/
def strEndsWith (s pat : String) : Bool :=
  charsStartWith s.data.reverse pat.data.reverse

/-- Fuel-driven worker for `charsReplace`. -/
def charsReplaceAux (fuel : Nat) (s pat rep : List Char) : List Char :=
  match fuel, s with
  | 0, s => s
  | _, [] => []
  | fuel + 1, c :: rest =>
    if charsStartWith (c :: rest) pat && !pat.isEmpty then
      rep ++ charsReplaceAux fuel ((c :: rest).drop pat.length) pat rep
    else
      c :: charsReplaceAux fuel rest pat rep

/-- Left-to-right non-overlapping replacement, modelling `str.replace`. -/
def charsReplace (s pat rep : List Char) : List Char :=
  charsReplaceAux s.length s pat rep

/-- Embeds Python `s.replace(pat, rep)`. -/
def strReplace (s pat rep : String) : String :=
  String.mk (charsReplace s.data pat.data rep.data)

/-- Fuel-driven worker for `strSplitOn`. -/
def charsSplitOnAux (fuel : Nat) (s sep : List Char) (acc : List Char) :
    List (List Char) :=
  match fuel, s with
  | 0, s => [acc ++ s]
  | _, [] => [acc]
  | fuel + 1, c :: rest =>
    if charsStartWith (c :: rest) sep && !sep.isEmpty then
      acc :: charsSplitOnAux fuel ((c :: rest).drop sep.length) sep []
    else
      charsSplitOnAux fuel rest sep (acc ++ [c])

/-- Embeds Python `s.split(sep)` for a non-empty separator. -/
def strSplitOn (s sep : String) : List String :=
  (charsSplitOnAux s.data.length s.data sep.data []).map String.mk

/-- Worker for `splitWs`: accumulator holds the current word reversed. -/
def splitWsAux : List Char → List Char → List (List Char)
  | [], acc => if acc.isEmpty then [] else [acc.reverse]
  | c :: rest, acc =>
    if c.isWhitespace then
      if acc.isEmpty then splitWsAux rest []
      else acc.reverse :: splitWsAux rest []
    else splitWsAux rest (c :: acc)

/-- Embeds Python `s.split()` (split on whitespace runs, no empty parts). -/
def splitWs (s : String) : List String :=
  (splitWsAux s.data []).map String.mk

/-- Strip leading and trailing whitespace, modelling `str.strip`. -/
def strTrim (s : String) : String :=
  String.mk (((s.data.dropWhile Char.isWhitespace).reverse.dropWhile
    Char.isWhitespace).reverse)

/-- Lowercased copy of a string (ASCII, as all modelled inputs are). -/
def strLower (s : String) : String :=
  String.mk (s.data.map Char.toLower)

/-- Uppercased copy of a string. -/
def strUpper (s : String) : String :=
  String.mk (s.data.map Char.toUpper)

/-- First `n` characters of a string, modelling `s[:n]`. -/
def strTake (s : String) (n : Nat) : String :=
  String.mk (s.data.take n)

/-- All but the first `n` characters of a string. -/
def strDropN (s : String) (n : Nat) : String :=
  String.mk (s.data.drop n)

/-- Join a list of strings with a separator. -/
def strJoinSep (sep : String) : List String → String
  | [] => ""
  | [x] => x
  | x :: rest => x ++ sep ++ strJoinSep sep rest

/-- Decimal digit accumulator. -/
def digitsToNat (l : List Char) : Nat :=
  l.foldl (fun a c => a * 10 + (c.toNat - 48)) 0

/-- Fuel-driven decimal printer worker (digits accumulated on the right). -/
def natToStrAux : Nat → Nat → List Char → List Char
  | 0, _, acc => acc
  | fuel + 1, n, acc =>
    let d := Char.ofNat (48 + n % 10)
    if n < 10 then d :: acc else natToStrAux fuel (n / 10) (d :: acc)

/-- Decimal representation of a natural number (as Python `str(n)`). -/
def natToStr (n : Nat) : String :=
  String.mk (natToStrAux (n + 1) n [])

/-- Python `int(s)`: optional surrounding whitespace, optional sign, digits.
(Underscore digit grouping, accepted by CPython, is not modelled; no input
in this development uses it.) -/
def pyInt? (s : String) : Option Int :=
  let t := (strTrim s).data
  match t with
  | '+' :: u =>
    if !u.isEmpty && u.all Char.isDigit then some (digitsToNat u : Int) else none
  | '-' :: u =>
    if !u.isEmpty && u.all Char.isDigit then some (-(digitsToNat u : Int)) else none
  | u =>
    if !u.isEmpty && u.all Char.isDigit then some (digitsToNat u : Int) else none

/-- Stable insertion of `a` into a list sorted descending by `k` (ties keep
the existing element first, so the overall sort is stable). -/
def insertDescBy (k : α → Int) (a : α) : List α → List α
  | [] => [a]
  | b :: rest =>
    if k b > k a then b :: insertDescBy k a rest else a :: b :: rest

/-- Stable descending sort by key, modelling Python's stable
`sorted(l, key=k, reverse=True)`. -/
def sortDescBy (k : α → Int) : List α → List α
  | [] => []
  | a :: rest => insertDescBy k a (sortDescBy k rest)

/-! ## MD5 (RFC 1321), over byte lists

`PlaceholderGenerator._domain_to_hue` and `ImageProcessor.process_logo`
both use `hashlib.md5`; this is an executable Nat-based implementation. -/

/-- Left-rotate a 32-bit value (given as a `Nat` below `2^32`). -/
def rotl32 (x n : Nat) : Nat :=
  ((x <<< n) ||| (x >>> (32 - n))) % 4294967296

/-- The 64 MD5 sine-derived constants `K[i] = floor(abs(sin(i+1)) * 2^32)`. -/
def md5K : List Nat :=
  [3614090360, 3905402710, 606105819, 3250441966, 4118548399, 1200080426,
   2821735955, 4249261313, 1770035416, 2336552879, 4294925233, 2304563134,
   1804603682, 4254626195, 2792965006, 1236535329, 4129170786, 3225465664,
   643717713, 3921069994, 3593408605, 38016083, 3634488961, 3889429448,
   568446438, 3275163606, 4107603335, 1163531501, 2850285829, 4243563512,
   1735328473, 2368359562, 4294588738, 2272392833, 1839030562, 4259657740,
   2763975236, 1272893353, 4139469664, 3200236656, 681279174, 3936430074,
   3572445317, 76029189, 3654602809, 3873151461, 530742520, 3299628645,
   4096336452, 1126891415, 2878612391, 4237533241, 1700485571, 2399980690,
   4293915773, 2240044497, 1873313359, 4264355552, 2734768916, 1309151649,
   4149444226, 3174756917, 718787259, 3951481745]

/-- Per-round left-rotation amounts. -/
def md5S : List Nat :=
  [7, 12, 17, 22, 7, 12, 17, 22, 7, 12, 17, 22, 7, 12, 17, 22,
   5, 9, 14, 20, 5, 9, 14, 20, 5, 9, 14, 20, 5, 9, 14, 20,
   4, 11, 16, 23, 4, 11, 16, 23, 4, 11, 16, 23, 4, 11, 16, 23,
   6, 10, 15, 21, 6, 10, 15, 21, 6, 10, 15, 21, 6, 10, 15, 21]

/-- Little-endian byte expansion (`k` bytes) of a natural number. -/
def leBytes (k n : Nat) : List Nat :=
  (List.range k).map (fun i => (n >>> (8 * i)) % 256)

/-- MD5 padding: append `0x80`, zero bytes to 56 mod 64, then the original
bit length as 8 little-endian bytes. -/
def md5pad (msg : List Nat) : List Nat :=
  let len := msg.length
  let zeros := (119 - len % 64) % 64
  msg ++ [128] ++ List.replicate zeros 0 ++ leBytes 8 (len * 8)

/-- Fuel-driven worker for `chunks64` (the fuel is an upper bound on the
number of chunks). -/
def chunks64Aux : Nat → List Nat → List (List Nat)
  | 0, _ => []
  | _, [] => []
  | fuel + 1, l => l.take 64 :: chunks64Aux fuel (l.drop 64)

/-- Split a byte list into 64-byte chunks. -/
def chunks64 (l : List Nat) : List (List Nat) :=
  chunks64Aux l.length l

/-- One MD5 round step; `m j` is the `j`-th little-endian 32-bit word of the
current chunk, and the state is `(A, B, C, D)`. -/
def md5step (m : Nat → Nat) (st : Nat × Nat × Nat × Nat) (i : Nat) :
    Nat × Nat × Nat × Nat :=
  let mask := 4294967295
  let a := st.1
  let b := st.2.1
  let c := st.2.2.1
  let d := st.2.2.2
  let fg : Nat × Nat :=
    if i < 16 then ((b &&& c) ||| ((mask ^^^ b) &&& d), i)
    else if i < 32 then ((d &&& b) ||| ((mask ^^^ d) &&& c), (5 * i + 1) % 16)
    else if i < 48 then (b ^^^ c ^^^ d, (3 * i + 5) % 16)
    else (c ^^^ (b ||| (mask ^^^ d)), (7 * i) % 16)
  let f := (fg.1 + a + md5K.getD i 0 + m fg.2) % 4294967296
  (d, (b + rotl32 f (md5S.getD i 0)) % 4294967296, b, c)

/-- Process one 64-byte chunk, updating the running MD5 state. -/
def md5chunk (st : Nat × Nat × Nat × Nat) (chunk : List Nat) :
    Nat × Nat × Nat × Nat :=
  let m : Nat → Nat := fun j =>
    chunk.getD (4 * j) 0 + 256 * chunk.getD (4 * j + 1) 0 +
      65536 * chunk.getD (4 * j + 2) 0 + 16777216 * chunk.getD (4 * j + 3) 0
  let r := (List.range 64).foldl (md5step m) st
  ((st.1 + r.1) % 4294967296, (st.2.1 + r.2.1) % 4294967296,
   (st.2.2.1 + r.2.2.1) % 4294967296, (st.2.2.2 + r.2.2.2) % 4294967296)

/-- MD5 digest of a byte list, as the 16 digest bytes. -/
def md5bytes (msg : List Nat) : List Nat :=
  let init : Nat × Nat × Nat × Nat :=
    (1732584193, 4023233417, 2562383102, 271733878)
  let st := (chunks64 (md5pad msg)).foldl md5chunk init
  leBytes 4 st.1 ++ leBytes 4 st.2.1 ++ leBytes 4 st.2.2.1 ++ leBytes 4 st.2.2.2

/-- One lowercase hex digit. -/
def hexDigit (n : Nat) : Char :=
  if n < 10 then Char.ofNat (48 + n) else Char.ofNat (87 + n)

/-- Lowercase hex string of a byte list (two digits per byte). -/
def bytesToHex (bs : List Nat) : String :=
  String.mk (bs.flatMap (fun b => [hexDigit (b / 16), hexDigit (b % 16)]))

/-- Embeds `hashlib.md5(msg).hexdigest()`. -/
def md5hex (msg : List Nat) : String :=
  bytesToHex (md5bytes msg)

/-- The UTF-8 encoding of one character. -/
def utf8Bytes (c : Char) : List Nat :=
  let n := c.toNat
  if n < 128 then [n]
  else if n < 2048 then [192 + n / 64, 128 + n % 64]
  else if n < 65536 then [224 + n / 4096, 128 + (n / 64) % 64, 128 + n % 64]
  else [240 + n / 262144, 128 + (n / 4096) % 64, 128 + (n / 64) % 64, 128 + n % 64]

/-- UTF-8 bytes of a string, modelling Python's `str.encode()`. -/
def strBytes (s : String) : List Nat :=
  s.data.flatMap utf8Bytes

/-- Value of a hex digit character. -/
def hexDigitVal (c : Char) : Nat :=
  if c.toNat ≥ 97 then c.toNat - 87
  else if c.toNat ≥ 65 then c.toNat - 55
  else c.toNat - 48

/-- Python `int(s, 16)` on a lowercase hex string. -/
def hexToNat (s : String) : Nat :=
  s.data.foldl (fun acc c => acc * 16 + hexDigitVal c) 0

/-! ## PlaceholderGenerator (`app/scraper/placeholder_generator.py`)

`generate_placeholder` writes an SVG file and returns its relative path; the
embedding returns the pair (path, written SVG content). -/

/-- Embeds `PlaceholderGenerator._slugify`. -/
def slugify (text : String) : String :=
  strReplace (strReplace (strReplace (strReplace text "https://" "") "http://" "") "/" "-") "." "-"

/-- Embeds `PlaceholderGenerator._domain_to_hue`: `int(md5(domain).hexdigest(), 16) % 360`. -/
def domain_to_hue (domain : String) : Nat :=
  hexToNat (md5hex (strBytes domain)) % 360

/-- Embeds `PlaceholderGenerator._extract_initials`: first letters (uppercased) of up
to the first two whitespace-separated words of the name; if that yields
nothing, the first two characters of the domain with `www.` removed and
everything from the first dot on dropped, uppercased. -/
def extract_initials (site_name domain : String) : String :=
  let fromName :=
    if site_name ≠ "" then
      let words := (splitWs (strTrim site_name)).take 2
      String.mk (words.filterMap (fun w => w.data.head?.map Char.toUpper))
    else ""
  if fromName ≠ "" then fromName
  else
    let domain_clean := (strSplitOn (strReplace domain "www." "") ".").headD ""
    strUpper (strTake domain_clean 2)

/-- The SVG text produced by `PlaceholderGenerator.generate_placeholder`
(the Python f-string with `bg_color`, `text_color` and `initials` filled in). -/
def placeholder_svg (site_name domain : String) : String :=
  let initials := extract_initials site_name domain
  let color_hue := domain_to_hue domain
  let bg_color := "hsl(" ++ natToStr color_hue ++ ", 40%, 85%)"
  let text_color := "hsl(" ++ natToStr color_hue ++ ", 40%, 35%)"
  "<?xml version=\"1.0\" encoding=\"UTF-8\"?>\n" ++
  "<svg width=\"400\" height=\"400\" xmlns=\"http://www.w3.org/2000/svg\">\n" ++
  "  <rect width=\"400\" height=\"400\" fill=\"" ++ bg_color ++ "\"/>\n" ++
  "  <text x=\"200\" y=\"200\" text-anchor=\"middle\" dy=\".35em\"\n" ++
  "        font-family=\"system-ui, -apple-system, sans-serif\" \n" ++
  "        font-size=\"140\" font-weight=\"600\" fill=\"" ++ text_color ++ "\">\n" ++
  "    " ++ initials ++ "\n" ++
  "  </text>\n" ++
  "</svg>"

/-- Embeds `PlaceholderGenerator.generate_placeholder`: returns
`(relative path, SVG file content written)`. -/
def generate_placeholder (site_name domain : String) : String × String :=
  ("/static/placeholders/" ++ slugify domain ++ ".svg",
   placeholder_svg site_name domain)

/-! ## ImageProcessor (`app/scraper/image_processor.py`)

The HTTP download is modelled as an optional response (`none` models a
transport error or a non-success status raised by `raise_for_status`); the
PIL decode is modelled by an optional decoded image carried in the response
(`none` models `Image.open` raising). Pixel data is not modelled: a decoded
image is its width, height and PIL mode string. -/

structure PILImage where
  width : Nat
  height : Nat
  mode : String
deriving Repr, DecidableEq

structure ImgResponse where
  content : List Nat
  contentType : String
  decoded : Option PILImage
deriving Repr, DecidableEq

structure ProcessedImage where
  cached_path : String
  cached_path_webp : String
  etag : String
  dimensions : String
  format : String
deriving Repr, DecidableEq

/-- Configuration of `ImageProcessor` (`max_size_mb`, `output_size`); the
defaults in `refresh.py` are 5 and 400. -/
structure ProcConfig where
  max_size_mb : Nat
  output_size : Nat
deriving Repr, DecidableEq

def ProcConfig.max_size_bytes (cfg : ProcConfig) : Nat :=
  cfg.max_size_mb * 1024 * 1024

/-- The color-normalization operation chosen by lines 69-75 of
`image_processor.py`. -/
inductive NormalizeOp where
  | compositeWhite
  | convertRGB
  | keep
deriving Repr, DecidableEq

/-- Which normalization the code performs for a given PIL mode: composite
onto a white background only for mode `RGBA`; plain `convert('RGB')` for
every other non-`RGB` mode; nothing for `RGB`. -/
def normalize_op (mode : String) : NormalizeOp :=
  if mode = "RGBA" then .compositeWhite
  else if mode ≠ "RGB" then .convertRGB
  else .keep

/-- PIL modes that carry an alpha channel (PIL convention: `RGBA`, `RGBa`,
`LA`, `La`, `PA`). Used to state the spec's claim about alpha handling. -/
def pil_has_alpha (mode : String) : Bool :=
  mode = "RGBA" || mode = "RGBa" || mode = "LA" || mode = "La" || mode = "PA"

/-- Embeds `round_aspect` for the new width in `PIL.Image.thumbnail` (portrait
branch): nearest integer to `out * w / h` with ties to floor, then at least
1. Exact-rational model of PIL's float computation. -/
def round_aspect_x (w h out : Nat) : Nat :=
  let fl := (out * w) / h
  let r := (out * w) % h
  max (if 2 * r ≤ h then fl else fl + 1) 1

/-- Embeds `round_aspect` for the new height in `PIL.Image.thumbnail` (landscape
branch). PIL minimizes `abs(aspect - x / n)` over floor and ceiling of
`out * h / w` (with `key(0) = 0`), ties to floor; exact-rational model. -/
def round_aspect_y (w h out : Nat) : Nat :=
  let fl := (out * h) / w
  let r := (out * h) % w
  let ce := if r = 0 then fl else fl + 1
  let n :=
    if fl = 0 then 0
    else if (out * h - w * fl) * ce ≤ (w * ce - out * h) * fl then fl else ce
  max n 1

/-- Dimensions after `img.thumbnail((out, out), LANCZOS)`; exact-rational
model of PIL's aspect-preserving downscale. The `w = 0` / `h = 0` cases are
unreachable from `process_logo` (dimensions are validated to be at least
32 first). -/
def thumbnail_dims (w h out : Nat) : Nat × Nat :=
  if out ≥ w ∧ out ≥ h then (w, h)
  else if h = 0 ∨ w = 0 then (w, h)
  else if w ≤ h then (round_aspect_x w h out, out)
  else (out, round_aspect_y w h out)

/-- Lines 69-79 of `image_processor.py`: normalize the color mode (the
result mode is always `RGB`), then downscale with `thumbnail` only when a
dimension exceeds `output_size`. -/
def transform_image (img : PILImage) (output_size : Nat) : PILImage :=
  let img1 :=
    if img.mode = "RGBA" then { img with mode := "RGB" }
    else if img.mode ≠ "RGB" then { img with mode := "RGB" }
    else img
  if img1.width > output_size ∨ img1.height > output_size then
    let wh := thumbnail_dims img1.width img1.height output_size
    { img1 with width := wh.1, height := wh.2 }
  else img1

/-- Embeds `ImageProcessor.process_logo`. `none` for the response models the
download raising (transport error or `raise_for_status`); a `none` decode
models `Image.open` raising. Every failure is an `Except.error` — the
component never substitutes a fallback. -/
def process_logo (cfg : ProcConfig) (resp? : Option ImgResponse)
    (domain_slug : String) : Except String ProcessedImage :=
  match resp? with
  | none => .error "download failed"
  | some resp =>
    if resp.content.length > cfg.max_size_bytes then
      .error ("Image too large: " ++ natToStr resp.content.length ++ " bytes")
    else if !(strContains resp.contentType "image") then
      .error ("Invalid content type: " ++ resp.contentType)
    else
      match resp.decoded with
      | none => .error "cannot identify image file"
      | some img =>
        if img.width < 32 ∨ img.height < 32 then
          .error ("Image too small: " ++ natToStr img.width ++ "x" ++ natToStr img.height)
        else if img.width > 2000 ∨ img.height > 2000 then
          .error ("Image too large: " ++ natToStr img.width ++ "x" ++ natToStr img.height)
        else
          let img2 := transform_image img cfg.output_size
          let etag := strTake (md5hex resp.content) 12
          let filename := domain_slug ++ ".png"
          let webp_filename := domain_slug ++ ".webp"
          .ok { cached_path := "/static/cached-logos/" ++ filename
                cached_path_webp := "/static/cached-logos/" ++ webp_filename
                etag := etag
                dimensions := natToStr img2.width ++ "x" ++ natToStr img2.height
                format := "png" }

/-! ## LogoExtractor (`app/scraper/logo_extractor.py`)

The fetched page is modelled as a pre-parsed soup: the list of `link`
elements, the list of `meta` elements, and the list of header/nav/banner
containers selected by `soup.select('header, nav, .header, .navbar,
[role="banner"]')`, each holding its `img` elements in document order.
BeautifulSoup's `rel` attribute is multi-valued (a list of tokens); other
attributes are plain optional strings. The page fetch and the HEAD probes
of `_try_common_paths` are explicit oracles. -/

structure LinkTag where
  rel : List String
  href : Option String
  type : Option String
  sizes : Option String
deriving Repr, DecidableEq

structure MetaTag where
  prop : Option String
  name : Option String
  content : Option String
deriving Repr, DecidableEq

/-- An HTML attribute value as `_parse_dimension` receives it: an int or a
string (BeautifulSoup delivers strings; the function also accepts ints). -/
inductive AttrVal where
  | intVal (n : Int)
  | strVal (s : String)
deriving Repr, DecidableEq

structure ImgTag where
  alt : Option String
  src : Option String
  classes : List String
  width : Option AttrVal
  height : Option AttrVal
deriving Repr, DecidableEq

structure HeaderContainer where
  imgs : List ImgTag
deriving Repr, DecidableEq

structure Soup where
  links : List LinkTag
  metas : List MetaTag
  headerContainers : List HeaderContainer
deriving Repr, DecidableEq

structure ExtractionResult where
  logo_url : Option String
  method : String
  status : String
  error : Option String
deriving Repr, DecidableEq

/-- Scheme of a URL (`urlparse(url).scheme` for absolute http/https URLs). -/
def scheme_of (url : String) : String :=
  if strContains url "://" then (strSplitOn url "://").headD "" else ""

/-- Network location of a URL (`urlparse(url).netloc` for absolute
http/https URLs). -/
def netloc_of (url : String) : String :=
  match strSplitOn url "://" with
  | _ :: rest :: _ =>
    (strSplitOn ((strSplitOn ((strSplitOn rest "/").headD "") "?").headD "") "#").headD ""
  | _ => ""

/-- Path part of a URL after `scheme://netloc`. -/
def path_of (url : String) : String :=
  match strSplitOn url "://" with
  | _ :: rest :: _ => strDropN rest (netloc_of url).length
  | _ => url

/-- Models `urllib.parse.urljoin` for the cases arising here: empty
reference, absolute URL, protocol-relative, root-relative, and plain
relative references against an absolute http/https base. -/
def urljoin (base url : String) : String :=
  if url = "" then base
  else if strContains url "://" then url
  else if strStartsWith url "//" then scheme_of base ++ ":" ++ url
  else if strStartsWith url "/" then scheme_of base ++ "://" ++ netloc_of base ++ url
  else
    let p := path_of base
    let dir := strJoinSep "/" ((strSplitOn p "/").dropLast) ++ "/"
    scheme_of base ++ "://" ++ netloc_of base ++ dir ++ url

/-- BeautifulSoup match of a callable filter `lambda x: x and needle in
x.lower()` against the multi-valued `rel` attribute: the filter is applied
to each token. -/
def relHasSub (rel : List String) (needle : String) : Bool :=
  rel.any (fun t => strContains (strLower t) needle)

/-- Embeds `LogoExtractor._get_icon_size`: leading integer of the `sizes`
attribute before the first `x`, else 0. -/
def get_icon_size (link : LinkTag) : Int :=
  let sizes := link.sizes.getD ""
  if strContains sizes "x" then
    match pyInt? ((strSplitOn sizes "x").headD "") with
    | some n => n
    | none => 0
  else 0

/-- Embeds `LogoExtractor._extract_apple_touch_icon`: all links whose `rel`
contains `apple-touch-icon`, stably sorted by declared size descending
(Python's stable `sorted(..., reverse=True)`), first with a truthy `href`. -/
def extract_apple_touch_icon (soup : Soup) (base_url : String) : Option String :=
  let links := soup.links.filter (fun l => relHasSub l.rel "apple-touch-icon")
  let sorted := sortDescBy get_icon_size links
  (sorted.find? (fun l => truthy l.href)).map (fun l => urljoin base_url (l.href.getD ""))

/-- Embeds `LogoExtractor._extract_favicon`: prefer the first `rel=icon` link typed
`image/svg+xml` (used only if its `href` is truthy); otherwise the first
icon link whose `href` is truthy and does not end in `.ico`. -/
def extract_favicon (soup : Soup) (base_url : String) : Option String :=
  let regular :=
    let icons := soup.links.filter (fun l => relHasSub l.rel "icon")
    (icons.find? (fun i => truthy i.href && !strEndsWith (i.href.getD "") ".ico")).map
      (fun i => urljoin base_url (i.href.getD ""))
  match soup.links.find? (fun l => l.rel.any (· == "icon") && l.type == some "image/svg+xml") with
  | some svgIcon =>
    if truthy svgIcon.href then some (urljoin base_url (svgIcon.href.getD ""))
    else regular
  | none => regular

/-- Embeds `LogoExtractor._extract_og_image`. -/
def extract_og_image (soup : Soup) (base_url : String) : Option String :=
  match soup.metas.find? (fun m => m.prop == some "og:image") with
  | some m => if truthy m.content then some (urljoin base_url (m.content.getD "")) else none
  | none => none

/-- Embeds `LogoExtractor._extract_twitter_image`. -/
def extract_twitter_image (soup : Soup) (base_url : String) : Option String :=
  match soup.metas.find? (fun m => m.name == some "twitter:image") with
  | some m => if truthy m.content then some (urljoin base_url (m.content.getD "")) else none
  | none => none

/-- Exact-rational model of `0.33 <= width / height <= 3.0` (Python float
division of the declared dimensions; the literal 0.33 is modelled as the
rational 33/100, which agrees with the binary-float comparison for all
attribute-scale dimensions). Only reached with `height ≠ 0`. -/
def aspect_ok (w h : Int) : Bool :=
  if h > 0 then 33 * h ≤ 100 * w && w ≤ 3 * h
  else 100 * w ≤ 33 * h && 3 * h ≤ w

/-- Embeds `LogoExtractor._parse_dimension`. -/
def parse_dimension : Option AttrVal → Option Int
  | some (.intVal n) => some n
  | some (.strVal s) => pyInt? (strReplace s "px" "")
  | none => none

/-- Embeds `LogoExtractor._score_logo_image`: the logo-likelihood score. -/
def score_logo_image (img : ImgTag) : Nat :=
  let alt := strLower (img.alt.getD "")
  let s1 := if ["logo", "brand", "site"].any (fun w => strContains alt w) then 3 else 0
  let src := strLower (img.src.getD "")
  let s2 := if ["logo", "brand"].any (fun w => strContains src w) then 2 else 0
  let classes := strLower (strJoinSep " " img.classes)
  let s3 := if ["logo", "brand", "site-logo"].any (fun w => strContains classes w) then 2 else 0
  let sd :=
    match parse_dimension img.width, parse_dimension img.height with
    | some w, some h =>
      if w ≠ 0 ∧ h ≠ 0 then
        (if 60 ≤ w ∧ w ≤ 400 ∧ 40 ≤ h ∧ h ≤ 400 then 1 else 0) +
        (if aspect_ok w h then 1 else 0)
      else 0
    | _, _ => 0
  s1 + s2 + s3 + sd

/-- Inner loop of `_extract_header_logo` over the images of one container:
return on the first image scoring at least 4 whose `src` is truthy. -/
def header_logo_in_imgs (base_url : String) : List ImgTag → Option String
  | [] => none
  | img :: rest =>
    if score_logo_image img ≥ 4 then
      match img.src with
      | some src =>
        if src ≠ "" then some (urljoin base_url src)
        else header_logo_in_imgs base_url rest
      | none => header_logo_in_imgs base_url rest
    else header_logo_in_imgs base_url rest

/-- Outer loop of `_extract_header_logo` over the containers. -/
def header_logo_in_containers (base_url : String) : List HeaderContainer → Option String
  | [] => none
  | c :: rest =>
    match header_logo_in_imgs base_url c.imgs with
    | some u => some u
    | none => header_logo_in_containers base_url rest

/-- Embeds `LogoExtractor._extract_header_logo`: walk the header/nav/banner
containers in document order, returning the first accepted image. -/
def extract_header_logo (soup : Soup) (base_url : String) : Option String :=
  header_logo_in_containers base_url soup.headerContainers

/-- A HEAD response as seen by `_try_common_paths`: status code and the
`content-type` header (empty string when the header is absent). `none` as a
probe outcome models the request raising (silently skipped). -/
structure ProbeResponse where
  status_code : Nat
  content_type : String
deriving Repr, DecidableEq

/-- The fixed ordered list of conventional logo paths. -/
def common_paths : List String :=
  ["/logo.svg", "/logo.png", "/assets/logo.svg", "/assets/logo.png",
   "/images/logo.svg", "/images/logo.png", "/static/logo.svg", "/static/logo.png"]

/-- Embeds `LogoExtractor._try_common_paths`: probe each path against the origin of
`base_url`; accept the first returning status 200 with an image content
type. -/
def try_common_paths (probe : String → Option ProbeResponse)
    (base_url : String) : Option String :=
  let base := scheme_of base_url ++ "://" ++ netloc_of base_url
  (common_paths.find? (fun path =>
    match probe (base ++ path) with
    | some r => r.status_code == 200 && strContains r.content_type "image"
    | none => false)).map (fun path => base ++ path)

/-- Embeds `LogoExtractor.extract_logo`. `fetched` is the outcome of
`_fetch_page`: `none` models both exhausted retries and a falsy HTML body
(the code folds these into the same error record). -/
def extract_logo (fetched : Option (Soup × String))
    (probe : String → Option ProbeResponse) : ExtractionResult :=
  match fetched with
  | none => ⟨none, "none", "error", some "Failed to fetch page"⟩
  | some (soup, final_url) =>
    match extract_apple_touch_icon soup final_url with
    | some u => ⟨some u, "apple-touch-icon", "ok", none⟩
    | none =>
    match extract_favicon soup final_url with
    | some u => ⟨some u, "favicon", "ok", none⟩
    | none =>
    match extract_og_image soup final_url with
    | some u => ⟨some u, "og-image", "ok", none⟩
    | none =>
    match extract_twitter_image soup final_url with
    | some u => ⟨some u, "twitter-image", "ok", none⟩
    | none =>
    match extract_header_logo soup final_url with
    | some u => ⟨some u, "header-logo", "ok", none⟩
    | none =>
    match try_common_paths probe final_url with
    | some u => ⟨some u, "common-path", "ok", none⟩
    | none => ⟨none, "none", "error", some "No logo found"⟩

/-- The cascade as the specification words it: the ordered list of
(method name, strategy) pairs. -/
def cascade_strategies (probe : String → Option ProbeResponse) :
    List (String × (Soup → String → Option String)) :=
  [("apple-touch-icon", extract_apple_touch_icon),
   ("favicon", extract_favicon),
   ("og-image", extract_og_image),
   ("twitter-image", extract_twitter_image),
   ("header-logo", extract_header_logo),
   ("common-path", fun _ base => try_common_paths probe base)]

/-- First strategy (in cascade order) yielding a candidate, tagged with its
method name. -/
def first_strategy_hit (probe : String → Option ProbeResponse)
    (soup : Soup) (final_url : String) : Option (String × String) :=
  (cascade_strategies probe).findSome?
    (fun mf => (mf.2 soup final_url).map (fun u => (mf.1, u)))

/-! ## LogoRefresher (`app/refresh.py`)

A site catalog entry and a persisted logo record. Absent JSON keys are
modelled as `none` (`enabled` defaults to true at the call site
`site.get('enabled', True)` and is kept as a plain `Bool`). The record
store (`logos.json`) is passed in and returned as a list. The network is an
oracle bundle; which components are invoked while resolving one site is
reported as a call trace. -/

structure Site where
  url : String
  name : Option String
  category : Option String
  country : Option String
  enabled : Bool
  fallback_logo_url : Option String
deriving Repr, DecidableEq

structure LogoRecord where
  site_url : String
  display_name : String
  logo_url : Option String
  status : String
  last_checked_at : String
  extraction_method : String
  error_message : Option String
  category : Option String
  country : Option String
deriving Repr, DecidableEq

/-- The outbound network as seen by one refresh: page fetch outcome per
site URL, HEAD probe outcome per probed URL, image download outcome per
candidate URL. -/
structure Network where
  fetch : String → Option (Soup × String)
  probe : String → Option ProbeResponse
  download : String → Option ImgResponse

/-- A component invocation performed while resolving one site. -/
inductive Call where
  | extractor
  | processor
  | placeholder
deriving Repr, DecidableEq

/-- Embeds `LogoRefresher._get_fallback_logo`: keep a previous `ok` or `fallback`
record's logo, otherwise generate a placeholder. Returns
`(logo_url, status, placeholder generated?)`. -/
def get_fallback_logo (site : Site) (domain : String)
    (existing_logo : Option LogoRecord) : String × String × Bool :=
  let placeholderBranch :=
    ((generate_placeholder (site.name.getD domain) domain).1, "fallback", true)
  match existing_logo with
  | some ex =>
    if truthy ex.logo_url then
      if ex.status = "ok" then (ex.logo_url.getD "", "ok", false)
      else if ex.status = "fallback" then (ex.logo_url.getD "", "fallback", false)
      else placeholderBranch
    else placeholderBranch
  | none => placeholderBranch

/-- Embeds `LogoRefresher._process_site`: resolve one site to a record. `now` is
the `datetime.utcnow().isoformat() + 'Z'` timestamp. The second component
is the trace of scraper-component invocations. -/
def process_site (pcfg : ProcConfig) (net : Network) (now : String)
    (site : Site) (existing_logos : List LogoRecord) : LogoRecord × List Call :=
  let site_url := site.url
  let domain := netloc_of site_url
  let domain_slug := strReplace domain "." "-"
  let existing_logo := existing_logos.find? (fun l => l.site_url = site_url)
  if truthy site.fallback_logo_url then
    ({ site_url := site_url
       display_name := site.name.getD domain
       logo_url := site.fallback_logo_url
       status := "ok"
       last_checked_at := now
       extraction_method := "manual"
       error_message := none
       category := site.category
       country := site.country }, [])
  else
    let extr := extract_logo (net.fetch site_url) net.probe
    if extr.status = "ok" && truthy extr.logo_url then
      let cand := extr.logo_url.getD ""
      match process_logo pcfg (net.download cand) domain_slug with
      | .ok processed =>
        ({ site_url := site_url
           display_name := site.name.getD domain
           logo_url := some processed.cached_path
           status := "ok"
           last_checked_at := now
           extraction_method := extr.method
           error_message := none
           category := site.category
           country := site.country }, [.extractor, .processor])
      | .error _ =>
        let fb := get_fallback_logo site domain existing_logo
        ({ site_url := site_url
           display_name := site.name.getD domain
           logo_url := some fb.1
           status := fb.2.1
           last_checked_at := now
           extraction_method := extr.method
           error_message := extr.error
           category := site.category
           country := site.country },
         [.extractor, .processor] ++ (if fb.2.2 then [.placeholder] else []))
    else
      let fb := get_fallback_logo site domain existing_logo
      ({ site_url := site_url
         display_name := site.name.getD domain
         logo_url := some fb.1
         status := fb.2.1
         last_checked_at := now
         extraction_method := extr.method
         error_message := extr.error
         category := site.category
         country := site.country },
       [.extractor] ++ (if fb.2.2 then [.placeholder] else []))

/-- Embeds `LogoRefresher.refresh_all`: iterate the catalog, skipping disabled
sites, producing the new record list that replaces `logos.json` wholesale. -/
def refresh_all (pcfg : ProcConfig) (net : Network) (now : String)
    (sites : List Site) (existing : List LogoRecord) : List LogoRecord :=
  match sites with
  | [] => []
  | s :: rest =>
    if s.enabled then
      (process_site pcfg net now s existing).1 :: refresh_all pcfg net now rest existing
    else
      refresh_all pcfg net now rest existing

/-- Embeds `LogoRefresher.refresh_single`: recompute one record and splice it into
the persisted set by `site_url` (remove-then-append). Returns the record
and the new persisted set; `Site not found` raises `ValueError`. (The code
reads `logos.json` twice — once for the fallback chain and once for the
splice; both reads see the same `existing` content.) -/
def refresh_single (pcfg : ProcConfig) (net : Network) (now : String)
    (sites : List Site) (existing : List LogoRecord) (site_url : String) :
    Except String (LogoRecord × List LogoRecord) :=
  match sites.find? (fun s => s.url = site_url) with
  | none => .error ("Site not found: " ++ site_url)
  | some site =>
    let result := (process_site pcfg net now site existing).1
    let logos := existing.filter (fun l => l.site_url ≠ site_url)
    .ok (result, logos ++ [result])

/-! ## Specification-side definitions

Definitions written from the specification's words, to be compared with the
embedded code. -/

/-- The logo-likelihood score exactly as the specification words it: +3 for
alt text containing logo/brand/site, +2 for a source path containing
logo/brand, +2 for a class list containing logo/brand/site-logo, +1 for
declared width in 60..400 and height in 40..400, +1 for a declared aspect
quotient within 0.33..3.0. Containment is case-insensitive (the extractor
lowercases every attribute before testing). -/
def score_spec (img : ImgTag) : Nat :=
  (if ["logo", "brand", "site"].any (fun w => strContains (strLower (img.alt.getD "")) w) then 3 else 0) +
  (if ["logo", "brand"].any (fun w => strContains (strLower (img.src.getD "")) w) then 2 else 0) +
  (if ["logo", "brand", "site-logo"].any (fun w => strContains (strLower (strJoinSep " " img.classes)) w) then 2 else 0) +
  (if (match parse_dimension img.width, parse_dimension img.height with
       | some w, some h => decide (60 ≤ w) && decide (w ≤ 400) && decide (40 ≤ h) && decide (h ≤ 400)
       | _, _ => false) then 1 else 0) +
  (if (match parse_dimension img.width, parse_dimension img.height with
       | some w, some h => decide (h ≠ 0) && aspect_ok w h
       | _, _ => false) then 1 else 0)

/-! ## Helper lemmas -/

/-- Appending to a non-empty string is non-empty. -/
theorem append_ne_empty_left (s t : String) (h : s ≠ "") : s ++ t ≠ "" := by
  intro he
  apply h
  have hd := congrArg String.data he
  rw [String.data_append] at hd
  exact String.ext ((List.append_eq_nil.mp hd).1)

/-- Truthiness of an optional string unfolded. -/
theorem truthy_eq_true_iff (o : Option String) :
    truthy o = true ↔ ∃ s, o = some s ∧ s ≠ "" := by
  cases o <;> simp [truthy]

/-! ## C1 -/

/-- C1: for every enabled site with a configured (truthy) fallback/override
URL, `_process_site` returns a record with status `ok`, extraction method
`manual` and the override URL as `logo_url`, and performs no extractor,
processor or placeholder call at all — for every network oracle, in
particular on pages where scraping would succeed. -/
theorem C1_manual_override (pcfg : ProcConfig) (net : Network) (now : String)
    (site : Site) (existing : List LogoRecord)
    (h : truthy site.fallback_logo_url = true) :
    (process_site pcfg net now site existing).1.status = "ok" ∧
    (process_site pcfg net now site existing).1.extraction_method = "manual" ∧
    (process_site pcfg net now site existing).1.logo_url = site.fallback_logo_url ∧
    (process_site pcfg net now site existing).2 = [] := by
  simp [process_site, h]

/-- C1 witness: a concrete site with override URL `https://cdn.mv/l.png`,
against a network where scraping would also succeed (every probe reports an
image), resolves to the override with an empty call trace. -/
theorem C1_manual_override_witness :
    (process_site ⟨5, 400⟩
        ⟨fun _ => none, fun _ => some ⟨200, "image/png"⟩, fun _ => none⟩ "2026-01-01T00:00:00Z"
        ⟨"https://a.mv", some "A", none, none, true, some "https://cdn.mv/l.png"⟩
        []).1.status = "ok" ∧
    (process_site ⟨5, 400⟩
        ⟨fun _ => none, fun _ => some ⟨200, "image/png"⟩, fun _ => none⟩ "2026-01-01T00:00:00Z"
        ⟨"https://a.mv", some "A", none, none, true, some "https://cdn.mv/l.png"⟩
        []).1.extraction_method = "manual" ∧
    (process_site ⟨5, 400⟩
        ⟨fun _ => none, fun _ => some ⟨200, "image/png"⟩, fun _ => none⟩ "2026-01-01T00:00:00Z"
        ⟨"https://a.mv", some "A", none, none, true, some "https://cdn.mv/l.png"⟩
        []).1.logo_url = some "https://cdn.mv/l.png" ∧
    (process_site ⟨5, 400⟩
        ⟨fun _ => none, fun _ => some ⟨200, "image/png"⟩, fun _ => none⟩ "2026-01-01T00:00:00Z"
        ⟨"https://a.mv", some "A", none, none, true, some "https://cdn.mv/l.png"⟩
        []).2 = [] :=
  C1_manual_override ⟨5, 400⟩
    ⟨fun _ => none, fun _ => some ⟨200, "image/png"⟩, fun _ => none⟩ "2026-01-01T00:00:00Z"
    ⟨"https://a.mv", some "A", none, none, true, some "https://cdn.mv/l.png"⟩
    [] (by decide)

/-! ## C2 -/

/-- C2 (amended: the code's error message is `No logo found`, capitalized):
for every fetched page, `extract_logo` equals the first hit of the fixed
cascade apple-touch-icon, favicon, og-image, twitter-image, header-logo,
common-path — the result is the first strategy yielding a candidate, tagged
with that strategy's method name, and when no strategy yields a candidate
the result is status `error`, method `none`, error `No logo found`. -/
theorem C2_cascade_order (soup : Soup) (final_url : String)
    (probe : String → Option ProbeResponse) :
    extract_logo (some (soup, final_url)) probe =
      match first_strategy_hit probe soup final_url with
      | some mu => ⟨some mu.2, mu.1, "ok", none⟩
      | none => ⟨none, "none", "error", some "No logo found"⟩ := by
  cases h1 : extract_apple_touch_icon soup final_url <;>
    cases h2 : extract_favicon soup final_url <;>
      cases h3 : extract_og_image soup final_url <;>
        cases h4 : extract_twitter_image soup final_url <;>
          cases h5 : extract_header_logo soup final_url <;>
            cases h6 : try_common_paths probe final_url <;>
              simp [extract_logo, first_strategy_hit, cascade_strategies,
                List.findSome?_cons, h1, h2, h3, h4, h5, h6]

/-- C2 counterexample: on a page with no logo signal at all, the code's
error message is `No logo found`, not `no logo found` as the claim states. -/
theorem C2_counterexample :
    (extract_logo (some (⟨[], [], []⟩, "https://s.mv/")) (fun _ => none)).error =
      some "No logo found" ∧
    some "No logo found" ≠ some "no logo found" := by
  exact ⟨by decide, by decide⟩

/-! ## C3 -/

/-- C3: a full refresh is total and equals one record per enabled site:
the output is exactly the map of `_process_site` over the enabled sites of
the catalog (disabled sites are skipped and dropped), for every network
oracle — so a fetch error, validation error, processing error or missing
candidate at one site (all absorbed inside `_process_site`) never prevents
any other site from producing its record, and the persisted list has
exactly one record per enabled site. -/
theorem C3_refresh_all_complete (pcfg : ProcConfig) (net : Network)
    (now : String) (sites : List Site) (existing : List LogoRecord) :
    refresh_all pcfg net now sites existing =
      (sites.filter (fun s => s.enabled)).map
        (fun s => (process_site pcfg net now s existing).1) ∧
    (refresh_all pcfg net now sites existing).length =
      (sites.filter (fun s => s.enabled)).length := by
  have key : refresh_all pcfg net now sites existing =
      (sites.filter (fun s => s.enabled)).map
        (fun s => (process_site pcfg net now s existing).1) := by
    induction sites with
    | nil => rfl
    | cons s rest ih =>
      by_cases hs : s.enabled <;>
        simp [refresh_all, List.filter_cons, hs, ih]
  exact ⟨key, by rw [key, List.length_map]⟩

/-! ## C7 -/

set_option maxRecDepth 100000 in
/-- C7: `generate_placeholder` is a pure function in the embedding, so two
calls with identical arguments give byte-identical path and SVG output; the
concrete inputs `("Example Corp", "example.mv")` and `("Other Co",
"other.mv")` give different outputs, with different hues (311 versus 194,
both derived from the MD5 of the domain) and different initials (`EC`
versus `OC`); and the hue always lies in `[0, 360)`. -/
theorem C7_placeholder_deterministic :
    (∀ n d : String, generate_placeholder n d = generate_placeholder n d) ∧
    placeholder_svg "Example Corp" "example.mv" ≠ placeholder_svg "Other Co" "other.mv" ∧
    domain_to_hue "example.mv" = 311 ∧
    domain_to_hue "other.mv" = 194 ∧
    extract_initials "Example Corp" "example.mv" = "EC" ∧
    extract_initials "Other Co" "other.mv" = "OC" ∧
    (∀ d : String, domain_to_hue d < 360) := by
  refine ⟨fun n d => rfl, by decide, by decide, by decide, by decide, by decide,
    fun d => Nat.mod_lt _ (by norm_num)⟩

/-! ## C8 -/

/-- Auxiliary: a declared width of 0 never satisfies the aspect test. -/
theorem aspect_ok_zero_left (h : Int) (hh : h ≠ 0) : aspect_ok 0 h = false := by
  unfold aspect_ok
  split
  · rename_i hp
    simp only [Bool.and_eq_false_iff, decide_eq_false_iff_not]
    left
    omega
  · rename_i hp
    simp only [Bool.and_eq_false_iff, decide_eq_false_iff_not]
    left
    omega

/-- Auxiliary: the code's score equals the specification's score formula. -/
theorem score_eq_spec (img : ImgTag) : score_logo_image img = score_spec img := by
  unfold score_logo_image score_spec
  cases hw : parse_dimension img.width with
  | none => cases hh : parse_dimension img.height <;> simp
  | some w =>
    cases hh : parse_dimension img.height with
    | none => simp
    | some h =>
      simp only [hw, hh, Bool.and_eq_true, decide_eq_true_eq]
      by_cases hw0 : w = 0
      · subst hw0
        by_cases hh0 : h = 0
        · subst hh0
          rw [if_neg (show ¬((0 : Int) ≠ 0 ∧ (0 : Int) ≠ 0) from fun hc => hc.1 rfl),
            if_neg (show ¬((((60 : Int) ≤ 0 ∧ (0 : Int) ≤ 400) ∧ (40 : Int) ≤ 0) ∧
              (0 : Int) ≤ 400) from by omega),
            if_neg (show ¬((0 : Int) ≠ 0 ∧ aspect_ok 0 0 = true) from fun hc => hc.1 rfl)]
        · rw [if_neg (show ¬((0 : Int) ≠ 0 ∧ h ≠ 0) from fun hc => hc.1 rfl),
            if_neg (show ¬((((60 : Int) ≤ 0 ∧ (0 : Int) ≤ 400) ∧ 40 ≤ h) ∧ h ≤ 400) from
              by omega),
            if_neg (show ¬(h ≠ 0 ∧ aspect_ok 0 h = true) from
              fun hc => absurd hc.2 (by simp [aspect_ok_zero_left h hh0]))]
      · by_cases hh0 : h = 0
        · subst hh0
          rw [if_neg (show ¬(w ≠ 0 ∧ (0 : Int) ≠ 0) from fun hc => hc.2 rfl),
            if_neg (show ¬(((60 ≤ w ∧ w ≤ 400) ∧ (40 : Int) ≤ 0) ∧ (0 : Int) ≤ 400) from
              by omega),
            if_neg (show ¬((0 : Int) ≠ 0 ∧ aspect_ok w 0 = true) from fun hc => hc.1 rfl)]
        · rw [if_pos (show w ≠ 0 ∧ h ≠ 0 from ⟨hw0, hh0⟩)]
          have e1 : (if ((60 ≤ w ∧ w ≤ 400) ∧ 40 ≤ h) ∧ h ≤ 400 then (1 : Nat) else 0) =
              (if 60 ≤ w ∧ w ≤ 400 ∧ 40 ≤ h ∧ h ≤ 400 then (1 : Nat) else 0) :=
            if_congr (by tauto) rfl rfl
          have e2 : (if h ≠ 0 ∧ aspect_ok w h = true then (1 : Nat) else 0) =
              (if aspect_ok w h = true then (1 : Nat) else 0) :=
            if_congr ⟨And.right, fun a => ⟨hh0, a⟩⟩ rfl rfl
          rw [e1, e2]
          simp [Nat.add_assoc]

/-- Auxiliary: the inner image loop of `_extract_header_logo` is a
first-match search for score at least 4 together with a truthy `src`. -/
theorem header_logo_in_imgs_eq (base : String) (l : List ImgTag) :
    header_logo_in_imgs base l =
      (l.find? (fun img => decide (score_logo_image img ≥ 4) && truthy img.src)).map
        (fun img => urljoin base (img.src.getD "")) := by
  induction l with
  | nil => rfl
  | cons img rest ih =>
    by_cases h4 : score_logo_image img ≥ 4
    · cases hsrc : img.src with
      | none => simp [header_logo_in_imgs, List.find?_cons, h4, hsrc, truthy, ih]
      | some s =>
        by_cases hs : s = "" <;>
          simp [header_logo_in_imgs, List.find?_cons, h4, hsrc, truthy, hs, ih]
    · simp [header_logo_in_imgs, List.find?_cons, h4, ih]

/-- Auxiliary: the container walk is the same first-match search over the
concatenation of all container images, in document order. -/
theorem header_logo_in_containers_eq (base : String) (cs : List HeaderContainer) :
    header_logo_in_containers base cs =
      ((cs.flatMap HeaderContainer.imgs).find?
          (fun img => decide (score_logo_image img ≥ 4) && truthy img.src)).map
        (fun img => urljoin base (img.src.getD "")) := by
  induction cs with
  | nil => rfl
  | cons c rest ih =>
    simp only [header_logo_in_containers, List.flatMap_cons, List.find?_append,
      header_logo_in_imgs_eq base c.imgs, ih]
    cases c.imgs.find? (fun img => decide (score_logo_image img ≥ 4) && truthy img.src) <;>
      simp [Option.or]

/-- C8 (amended: the accepted image is the first, in document order over the
header/nav/banner containers, whose score is at least 4 and whose `src`
attribute is present and non-empty; an image scoring at least 4 but lacking
a truthy `src` is skipped): the score is +3 for alt text containing
logo/brand/site, +2 for a src containing logo/brand, +2 for a class list
containing logo/brand/site-logo, +1 for declared width in 60..400 and
height in 40..400, +1 for declared aspect quotient in 0.33..3.0; and the
heuristic accepts by threshold, not best-of. -/
theorem C8_header_logo_scoring :
    (∀ img : ImgTag, score_logo_image img = score_spec img) ∧
    (∀ (soup : Soup) (base_url : String),
      extract_header_logo soup base_url =
        ((soup.headerContainers.flatMap HeaderContainer.imgs).find?
            (fun img => decide (score_logo_image img ≥ 4) && truthy img.src)).map
          (fun img => urljoin base_url (img.src.getD ""))) :=
  ⟨score_eq_spec,
   fun soup base_url => header_logo_in_containers_eq base_url soup.headerContainers⟩

/-- C8 counterexample: in a header whose first image scores 5 (alt `site
logo`, class `brand`) but has no `src`, the code skips it and accepts the
second image (alt `logo`, src `/logo.png`, score 5) — so the accepted image
is not the first image whose score is at least 4, refuting the claim as
stated. -/
theorem C8_counterexample :
    score_logo_image ⟨some "site logo", none, ["brand"], none, none⟩ = 5 ∧
    (⟨some "site logo", none, ["brand"], none, none⟩ : ImgTag).src = none ∧
    extract_header_logo
      ⟨[], [], [⟨[⟨some "site logo", none, ["brand"], none, none⟩,
                  ⟨some "logo", some "/logo.png", [], none, none⟩]⟩]⟩
      "http://e.com" = some "http://e.com/logo.png" := by
  refine ⟨by decide, rfl, by decide⟩

/-! ## C9 -/

/-- Auxiliary: the rounded thumbnail width never exceeds the original
width. -/
theorem round_aspect_x_le (w h out : Nat) (hw : 0 < w) (hout : out < h) :
    round_aspect_x w h out ≤ w := by
  have hh : 0 < h := lt_of_le_of_lt (Nat.zero_le _) hout
  have hfl : (out * w) / h < w := by
    rw [Nat.div_lt_iff_lt_mul hh]
    calc out * w < h * w := (Nat.mul_lt_mul_right hw).mpr hout
    _ = w * h := Nat.mul_comm h w
  simp only [round_aspect_x]
  split <;> omega

/-- Auxiliary: the rounded thumbnail height never exceeds the original
height. -/
theorem round_aspect_y_le (w h out : Nat) (hh : 0 < h) (hout : out < w) :
    round_aspect_y w h out ≤ h := by
  have hw : 0 < w := lt_of_le_of_lt (Nat.zero_le _) hout
  have hfl : (out * h) / w < h := by
    rw [Nat.div_lt_iff_lt_mul hw]
    calc out * h < w * h := (Nat.mul_lt_mul_right hh).mpr hout
    _ = h * w := Nat.mul_comm w h
  simp only [round_aspect_y]
  split_ifs <;> omega

/-- Auxiliary: closed form of `transform_image` — the mode always becomes
`RGB`, and the dimensions go through `thumbnail_dims` exactly when one of
them exceeds the output edge. -/
theorem transform_image_eq (img : PILImage) (out : Nat) :
    transform_image img out =
      if img.width > out ∨ img.height > out then
        { width := (thumbnail_dims img.width img.height out).1,
          height := (thumbnail_dims img.width img.height out).2, mode := "RGB" }
      else { img with mode := "RGB" } := by
  obtain ⟨wd, ht, md⟩ := img
  unfold transform_image
  by_cases h1 : md = "RGBA"
  · simp [h1]
  · by_cases h2 : md = "RGB" <;> simp [h1, h2]

/-- Auxiliary: `thumbnail_dims` never enlarges either dimension. -/
theorem thumbnail_dims_le (w h out : Nat) (hw : 0 < w) (hh : 0 < h) :
    (thumbnail_dims w h out).1 ≤ w ∧ (thumbnail_dims w h out).2 ≤ h := by
  unfold thumbnail_dims
  split_ifs with hb hz hwh
  · exact ⟨Nat.le_refl w, Nat.le_refl h⟩
  · exact ⟨Nat.le_refl w, Nat.le_refl h⟩
  · constructor
    · exact round_aspect_x_le w h out hw (by omega)
    · omega
  · constructor
    · omega
    · exact round_aspect_y_le w h out hh (by omega)

/-- C9 (amended: compositing onto an opaque white background happens
exactly for mode `RGBA`; every other non-`RGB` mode — including the
alpha-bearing modes `LA`, `La`, `PA`, `RGBa` — is sent through a plain
`convert('RGB')`): the normalized output mode is always `RGB`, so the
cached output never carries alpha; resizing happens only when a decoded
dimension exceeds the configured output edge, a smaller image is returned
with its dimensions unchanged, and the thumbnail never enlarges either
dimension. -/
theorem C9_normalization_resize :
    normalize_op "RGBA" = NormalizeOp.compositeWhite ∧
    (∀ m : String, m ≠ "RGBA" → m ≠ "RGB" → normalize_op m = NormalizeOp.convertRGB) ∧
    (∀ (img : PILImage) (out : Nat), (transform_image img out).mode = "RGB") ∧
    (∀ (img : PILImage) (out : Nat), img.width ≤ out → img.height ≤ out →
      (transform_image img out).width = img.width ∧
      (transform_image img out).height = img.height) ∧
    (∀ (img : PILImage) (out : Nat), 0 < img.width → 0 < img.height →
      (transform_image img out).width ≤ img.width ∧
      (transform_image img out).height ≤ img.height) := by
  refine ⟨rfl, ?_, ?_, ?_, ?_⟩
  · intro m h1 h2
    unfold normalize_op
    rw [if_neg h1, if_pos h2]
  · intro img out
    rw [transform_image_eq]
    split <;> rfl
  · intro img out hwle hhle
    rw [transform_image_eq, if_neg (by omega)]
    exact ⟨rfl, rfl⟩
  · intro img out hw hh
    rw [transform_image_eq]
    split
    · exact thumbnail_dims_le img.width img.height out hw hh
    · exact ⟨Nat.le_refl _, Nat.le_refl _⟩

/-- C9 witness: a 100 by 80 `LA`-mode image with output edge 400 keeps its
dimensions and leaves normalization with mode `RGB`. -/
theorem C9_witness :
    (transform_image ⟨100, 80, "LA"⟩ 400).width = 100 ∧
    (transform_image ⟨100, 80, "LA"⟩ 400).height = 80 ∧
    (transform_image ⟨100, 80, "LA"⟩ 400).mode = "RGB" :=
  ⟨(C9_normalization_resize.2.2.2.1 ⟨100, 80, "LA"⟩ 400 (by decide) (by decide)).1,
   (C9_normalization_resize.2.2.2.1 ⟨100, 80, "LA"⟩ 400 (by decide) (by decide)).2,
   C9_normalization_resize.2.2.1 ⟨100, 80, "LA"⟩ 400⟩

/-- C9 counterexample: PIL mode `LA` (grayscale with alpha) carries an
alpha channel, yet the code does not composite it onto a white background —
it takes the plain `convert('RGB')` path, refuting the claim that any image
with an alpha channel is composited onto white. -/
theorem C9_counterexample :
    pil_has_alpha "LA" = true ∧
    normalize_op "LA" = NormalizeOp.convertRGB ∧
    NormalizeOp.convertRGB ≠ NormalizeOp.compositeWhite := by
  refine ⟨by decide, by decide, by decide⟩

/-! ## Structural lemmas about `process_logo` and `process_site` -/

/-- Auxiliary: a successful `process_logo` returns the cache path derived
from the domain slug. -/
theorem process_logo_ok_path (cfg : ProcConfig) (resp? : Option ImgResponse)
    (slug : String) (p : ProcessedImage)
    (h : process_logo cfg resp? slug = .ok p) :
    p.cached_path = "/static/cached-logos/" ++ (slug ++ ".png") := by
  unfold process_logo at h
  cases resp? with
  | none => exact absurd h (by simp)
  | some resp =>
    cases hd : resp.decoded with
    | none =>
      simp only [hd] at h
      split_ifs at h
    | some img =>
      simp only [hd] at h
      split_ifs at h
      injection h with h1
      rw [← h1]

/-- Auxiliary: the fallback helper yields status `ok` or `fallback` and a
non-empty logo URL. -/
theorem get_fallback_logo_sound (site : Site) (domain : String)
    (ex : Option LogoRecord) :
    ((get_fallback_logo site domain ex).2.1 = "ok" ∨
     (get_fallback_logo site domain ex).2.1 = "fallback") ∧
    (get_fallback_logo site domain ex).1 ≠ "" := by
  have hph : ("/static/placeholders/" ++ slugify domain ++ ".svg") ≠ "" :=
    append_ne_empty_left _ _ (append_ne_empty_left _ _ (by decide))
  cases ex with
  | none =>
    simp only [get_fallback_logo, generate_placeholder]
    exact ⟨by simp, hph⟩
  | some e =>
    simp only [get_fallback_logo, generate_placeholder]
    by_cases ht : truthy e.logo_url = true
    · rcases (truthy_eq_true_iff _).mp ht with ⟨s, hs, hne⟩
      rw [if_pos ht]
      by_cases h1 : e.status = "ok"
      · rw [if_pos h1]
        refine ⟨Or.inl rfl, ?_⟩
        rw [hs]
        simpa using hne
      · rw [if_neg h1]
        by_cases h2 : e.status = "fallback"
        · rw [if_pos h2]
          refine ⟨Or.inr rfl, ?_⟩
          rw [hs]
          simpa using hne
        · rw [if_neg h2]
          exact ⟨Or.inr rfl, hph⟩
    · rw [if_neg ht]
      exact ⟨Or.inr rfl, hph⟩

/-- Auxiliary: the override branch of `_process_site` in closed form. -/
theorem process_site_override (pcfg : ProcConfig) (net : Network) (now : String)
    (site : Site) (existing : List LogoRecord)
    (hov : truthy site.fallback_logo_url = true) :
    process_site pcfg net now site existing =
      ({ site_url := site.url, display_name := site.name.getD (netloc_of site.url),
         logo_url := site.fallback_logo_url, status := "ok", last_checked_at := now,
         extraction_method := "manual", error_message := none,
         category := site.category, country := site.country }, []) := by
  unfold process_site
  rw [if_pos hov]

/-- Auxiliary: the successful scrape-and-process branch of `_process_site`
in closed form. -/
theorem process_site_scrape_ok (pcfg : ProcConfig) (net : Network) (now : String)
    (site : Site) (existing : List LogoRecord) (p : ProcessedImage)
    (hov : truthy site.fallback_logo_url = false)
    (hc : ((extract_logo (net.fetch site.url) net.probe).status = "ok" &&
        truthy (extract_logo (net.fetch site.url) net.probe).logo_url) = true)
    (hp : process_logo pcfg
        (net.download ((extract_logo (net.fetch site.url) net.probe).logo_url.getD ""))
        (strReplace (netloc_of site.url) "." "-") = .ok p) :
    process_site pcfg net now site existing =
      ({ site_url := site.url, display_name := site.name.getD (netloc_of site.url),
         logo_url := some p.cached_path, status := "ok", last_checked_at := now,
         extraction_method := (extract_logo (net.fetch site.url) net.probe).method,
         error_message := none, category := site.category, country := site.country },
       [Call.extractor, Call.processor]) := by
  simp only [process_site]
  rw [if_neg (by simp [hov]), if_pos hc, hp]

/-- Auxiliary: when there is no override and either the extraction or the
processing fails, `_process_site` takes its logo URL and status from
`_get_fallback_logo`. -/
theorem process_site_fallback_eq (pcfg : ProcConfig) (net : Network) (now : String)
    (site : Site) (existing : List LogoRecord)
    (hov : truthy site.fallback_logo_url = false)
    (hfail : ¬(((extract_logo (net.fetch site.url) net.probe).status = "ok" &&
        truthy (extract_logo (net.fetch site.url) net.probe).logo_url) = true) ∨
      (process_logo pcfg
        (net.download ((extract_logo (net.fetch site.url) net.probe).logo_url.getD ""))
        (strReplace (netloc_of site.url) "." "-")).isOk = false) :
    (process_site pcfg net now site existing).1.logo_url =
      some (get_fallback_logo site (netloc_of site.url)
        (existing.find? (fun l => l.site_url = site.url))).1 ∧
    (process_site pcfg net now site existing).1.status =
      (get_fallback_logo site (netloc_of site.url)
        (existing.find? (fun l => l.site_url = site.url))).2.1 := by
  simp only [process_site]
  rw [if_neg (by simp [hov])]
  by_cases hc : ((extract_logo (net.fetch site.url) net.probe).status = "ok" &&
      truthy (extract_logo (net.fetch site.url) net.probe).logo_url) = true
  · rcases hfail with hf | hf
    · exact absurd hc hf
    · rw [if_pos hc]
      cases hp : process_logo pcfg
          (net.download ((extract_logo (net.fetch site.url) net.probe).logo_url.getD ""))
          (strReplace (netloc_of site.url) "." "-") with
      | ok p =>
        rw [hp] at hf
        simp [Except.isOk, Except.toBool] at hf
      | error e =>
        exact ⟨rfl, rfl⟩
  · rw [if_neg hc]
    exact ⟨rfl, rfl⟩

/-- Auxiliary: every record produced by `_process_site` is keyed by the
site's catalog URL. -/
theorem process_site_site_url (pcfg : ProcConfig) (net : Network) (now : String)
    (site : Site) (existing : List LogoRecord) :
    (process_site pcfg net now site existing).1.site_url = site.url := by
  simp only [process_site]
  split
  · rfl
  · split
    · split <;> rfl
    · rfl

/-! ## C5 -/

/-- C5: given a successful download and decode, `process_logo` fails — as
an `Except.error`, never a substituted result — exactly when the byte size
exceeds the configured cap, or the content type does not contain `image`,
or a decoded dimension is below 32 or above 2000; in particular a 20 by 20
image and a 2500 by 1200 image are both rejected. -/
theorem C5_process_logo_validation :
    (∀ (cfg : ProcConfig) (resp : ImgResponse) (img : PILImage) (slug : String),
      resp.decoded = some img →
      ((process_logo cfg (some resp) slug).isOk = false ↔
        (resp.content.length > cfg.max_size_bytes ∨
         strContains resp.contentType "image" = false ∨
         img.width < 32 ∨ img.height < 32 ∨ img.width > 2000 ∨ img.height > 2000))) ∧
    (process_logo ⟨5, 400⟩ (some ⟨[], "image/png", some ⟨20, 20, "RGB"⟩⟩) "s").isOk
      = false ∧
    (process_logo ⟨5, 400⟩ (some ⟨[], "image/png", some ⟨2500, 1200, "RGB"⟩⟩) "s").isOk
      = false := by
  refine ⟨?_, by decide, by decide⟩
  intro cfg resp img slug hdec
  unfold process_logo
  simp only [hdec]
  by_cases h1 : resp.content.length > cfg.max_size_bytes
  · rw [if_pos h1]
    exact ⟨fun _ => Or.inl h1, fun _ => rfl⟩
  · rw [if_neg h1]
    by_cases h2 : strContains resp.contentType "image" = false
    · rw [if_pos (show (!strContains resp.contentType "image") = true by simp [h2])]
      exact ⟨fun _ => Or.inr (Or.inl h2), fun _ => rfl⟩
    · have h2t : strContains resp.contentType "image" = true := by
        cases hb : strContains resp.contentType "image"
        · exact absurd hb h2
        · rfl
      rw [if_neg (show ¬(!strContains resp.contentType "image") = true by simp [h2t])]
      by_cases h3 : img.width < 32 ∨ img.height < 32
      · rw [if_pos h3]
        refine ⟨fun _ => ?_, fun _ => rfl⟩
        rcases h3 with h | h
        · exact Or.inr (Or.inr (Or.inl h))
        · exact Or.inr (Or.inr (Or.inr (Or.inl h)))
      · rw [if_neg h3]
        by_cases h4 : img.width > 2000 ∨ img.height > 2000
        · rw [if_pos h4]
          refine ⟨fun _ => ?_, fun _ => rfl⟩
          rcases h4 with h | h
          · exact Or.inr (Or.inr (Or.inr (Or.inr (Or.inl h))))
          · exact Or.inr (Or.inr (Or.inr (Or.inr (Or.inr h))))
        · rw [if_neg h4]
          constructor
          · intro hfalse
            simp [Except.isOk, Except.toBool] at hfalse
          · intro hdisj
            exfalso
            rcases hdisj with h | h | h | h | h | h
            · exact h1 h
            · exact h2 h
            · exact h3 (Or.inl h)
            · exact h3 (Or.inr h)
            · exact h4 (Or.inl h)
            · exact h4 (Or.inr h)

/-- C5 witness: a response with content type `text/html` and a decodable
100 by 100 image is rejected. -/
theorem C5_witness :
    (process_logo ⟨5, 400⟩ (some ⟨[], "text/html", some ⟨100, 100, "RGB"⟩⟩) "s").isOk
      = false :=
  (C5_process_logo_validation.1 ⟨5, 400⟩ ⟨[], "text/html", some ⟨100, 100, "RGB"⟩⟩
    ⟨100, 100, "RGB"⟩ "s" rfl).mpr (by decide)

/-! ## C4 -/

/-- C4: for a site without an override whose extraction yields no usable
candidate or whose processing fails, the resulting record takes the prior
record's `logo_url` and status verbatim when a prior record for the same
`site_url` exists with a truthy `logo_url` and status `ok` or `fallback`;
otherwise the record carries a freshly generated placeholder path and
status `fallback`. -/
theorem C4_prior_retention (pcfg : ProcConfig) (net : Network) (now : String)
    (site : Site) (existing : List LogoRecord)
    (hov : truthy site.fallback_logo_url = false)
    (hfail : (extract_logo (net.fetch site.url) net.probe).status ≠ "ok" ∨
      truthy (extract_logo (net.fetch site.url) net.probe).logo_url = false ∨
      (process_logo pcfg
        (net.download ((extract_logo (net.fetch site.url) net.probe).logo_url.getD ""))
        (strReplace (netloc_of site.url) "." "-")).isOk = false) :
    (∀ p, existing.find? (fun l => l.site_url = site.url) = some p →
      truthy p.logo_url = true → (p.status = "ok" ∨ p.status = "fallback") →
      (process_site pcfg net now site existing).1.logo_url = p.logo_url ∧
      (process_site pcfg net now site existing).1.status = p.status) ∧
    ((∀ p, existing.find? (fun l => l.site_url = site.url) = some p →
        truthy p.logo_url = false ∨ (p.status ≠ "ok" ∧ p.status ≠ "fallback")) →
      (process_site pcfg net now site existing).1.logo_url =
        some (generate_placeholder (site.name.getD (netloc_of site.url))
          (netloc_of site.url)).1 ∧
      (process_site pcfg net now site existing).1.status = "fallback") := by
  have hfail' : ¬(((extract_logo (net.fetch site.url) net.probe).status = "ok" &&
      truthy (extract_logo (net.fetch site.url) net.probe).logo_url) = true) ∨
      (process_logo pcfg
        (net.download ((extract_logo (net.fetch site.url) net.probe).logo_url.getD ""))
        (strReplace (netloc_of site.url) "." "-")).isOk = false := by
    rcases hfail with h | h | h
    · left
      simp only [Bool.and_eq_true, decide_eq_true_eq, not_and]
      intro hok
      exact absurd hok h
    · left
      simp [Bool.and_eq_true, h]
    · right
      exact h
  obtain ⟨hlu, hst⟩ := process_site_fallback_eq pcfg net now site existing hov hfail'
  constructor
  · intro p hp htr hstat
    rw [hlu, hst, hp]
    rcases (truthy_eq_true_iff _).mp htr with ⟨s, hs, hne⟩
    simp only [get_fallback_logo, generate_placeholder]
    rw [if_pos htr]
    rcases hstat with h | h
    · rw [if_pos h]
      exact ⟨by rw [hs]; rfl, h.symm⟩
    · have hnok : ¬p.status = "ok" := by
        rw [h]
        decide
      rw [if_neg hnok, if_pos h]
      exact ⟨by rw [hs]; rfl, h.symm⟩
  · intro hall
    rw [hlu, hst]
    cases hfind : existing.find? (fun l => l.site_url = site.url) with
    | none =>
      simp only [get_fallback_logo, generate_placeholder]
      exact ⟨by trivial, by trivial⟩
    | some p =>
      rcases hall p hfind with h | ⟨h1, h2⟩
      · simp only [get_fallback_logo, generate_placeholder]
        rw [if_neg (by simp [h])]
        exact ⟨by trivial, by trivial⟩
      · simp only [get_fallback_logo, generate_placeholder]
        by_cases ht : truthy p.logo_url = true
        · rw [if_pos ht, if_neg h1, if_neg h2]
          exact ⟨by trivial, by trivial⟩
        · rw [if_neg ht]
          exact ⟨by trivial, by trivial⟩

/-- C4 witness: with the page fetch failing, no override configured, and a
prior `ok` record at `/old.png`, the record retains `/old.png` and status
`ok`. -/
theorem C4_witness :
    (process_site ⟨5, 400⟩ ⟨fun _ => none, fun _ => none, fun _ => none⟩ "T"
        ⟨"https://a.mv", some "A", none, none, true, none⟩
        [⟨"https://a.mv", "A", some "/old.png", "ok", "T0", "og-image", none, none, none⟩]
      ).1.logo_url = some "/old.png" ∧
    (process_site ⟨5, 400⟩ ⟨fun _ => none, fun _ => none, fun _ => none⟩ "T"
        ⟨"https://a.mv", some "A", none, none, true, none⟩
        [⟨"https://a.mv", "A", some "/old.png", "ok", "T0", "og-image", none, none, none⟩]
      ).1.status = "ok" :=
  (C4_prior_retention ⟨5, 400⟩ ⟨fun _ => none, fun _ => none, fun _ => none⟩ "T"
      ⟨"https://a.mv", some "A", none, none, true, none⟩
      [⟨"https://a.mv", "A", some "/old.png", "ok", "T0", "og-image", none, none, none⟩]
      (by decide) (Or.inl (by decide))).1
    ⟨"https://a.mv", "A", some "/old.png", "ok", "T0", "og-image", none, none, none⟩
    (by decide) (by decide) (Or.inl rfl)

/-! ## C6 -/

/-- C6: a single-site refresh for `site_url` splices exactly one recomputed
record (keyed by that URL) into the persisted set: the new set is the old
set with every record keyed `site_url` removed and the new record appended,
every surviving old record is untouched, and every record of the new set
other than the new one was already present. -/
theorem C6_single_refresh_frame (pcfg : ProcConfig) (net : Network) (now : String)
    (sites : List Site) (existing : List LogoRecord) (site_url : String) (site : Site)
    (hfind : sites.find? (fun s => s.url = site_url) = some site) :
    ∃ result,
      refresh_single pcfg net now sites existing site_url =
        .ok (result, existing.filter (fun l => l.site_url ≠ site_url) ++ [result]) ∧
      result.site_url = site_url ∧
      (∀ r ∈ existing, r.site_url ≠ site_url →
        r ∈ existing.filter (fun l => l.site_url ≠ site_url) ++ [result]) ∧
      (∀ r ∈ existing.filter (fun l => l.site_url ≠ site_url) ++ [result],
        r.site_url ≠ site_url → r ∈ existing) := by
  have hsu : site.url = site_url := by
    have h1 := List.find?_some hfind
    simpa using h1
  refine ⟨(process_site pcfg net now site existing).1, ?_, ?_, ?_, ?_⟩
  · unfold refresh_single
    rw [hfind]
  · rw [process_site_site_url, hsu]
  · intro r hr hne
    exact List.mem_append_left _ (List.mem_filter.mpr ⟨hr, by simpa using hne⟩)
  · intro r hr hne
    rcases List.mem_append.mp hr with h | h
    · exact (List.mem_filter.mp h).1
    · rw [List.mem_singleton] at h
      subst h
      rw [process_site_site_url, hsu] at hne
      exact absurd rfl hne

/-- C6 witness: refreshing `https://a.mv` (catalog of two sites, override
configured) leaves the other persisted record untouched and splices in the
manual-override record. -/
theorem C6_witness :
    ∃ result,
      refresh_single ⟨5, 400⟩ ⟨fun _ => none, fun _ => none, fun _ => none⟩ "T"
          [⟨"https://a.mv", some "A", none, none, true, some "https://cdn.mv/l.png"⟩,
           ⟨"https://b.mv", some "B", none, none, true, none⟩]
          [⟨"https://b.mv", "B", some "/b.png", "ok", "T0", "favicon", none, none, none⟩,
           ⟨"https://a.mv", "A", some "/a-old.png", "ok", "T0", "og-image", none, none, none⟩]
          "https://a.mv" =
        .ok (result,
          [⟨"https://b.mv", "B", some "/b.png", "ok", "T0", "favicon", none, none, none⟩,
           ⟨"https://a.mv", "A", some "/a-old.png", "ok", "T0", "og-image", none, none, none⟩].filter
              (fun l => l.site_url ≠ "https://a.mv") ++ [result]) ∧
      result.site_url = "https://a.mv" ∧
      (∀ r ∈ [⟨"https://b.mv", "B", some "/b.png", "ok", "T0", "favicon", none, none, none⟩,
              (⟨"https://a.mv", "A", some "/a-old.png", "ok", "T0", "og-image", none, none,
                none⟩ : LogoRecord)],
        r.site_url ≠ "https://a.mv" →
        r ∈ [⟨"https://b.mv", "B", some "/b.png", "ok", "T0", "favicon", none, none, none⟩,
             ⟨"https://a.mv", "A", some "/a-old.png", "ok", "T0", "og-image", none, none,
               none⟩].filter (fun l => l.site_url ≠ "https://a.mv") ++ [result]) ∧
      (∀ r ∈ [⟨"https://b.mv", "B", some "/b.png", "ok", "T0", "favicon", none, none, none⟩,
              (⟨"https://a.mv", "A", some "/a-old.png", "ok", "T0", "og-image", none, none,
                none⟩ : LogoRecord)].filter (fun l => l.site_url ≠ "https://a.mv") ++ [result],
        r.site_url ≠ "https://a.mv" →
        r ∈ [⟨"https://b.mv", "B", some "/b.png", "ok", "T0", "favicon", none, none, none⟩,
             ⟨"https://a.mv", "A", some "/a-old.png", "ok", "T0", "og-image", none, none,
               none⟩]) :=
  C6_single_refresh_frame ⟨5, 400⟩ ⟨fun _ => none, fun _ => none, fun _ => none⟩ "T"
    [⟨"https://a.mv", some "A", none, none, true, some "https://cdn.mv/l.png"⟩,
     ⟨"https://b.mv", some "B", none, none, true, none⟩]
    [⟨"https://b.mv", "B", some "/b.png", "ok", "T0", "favicon", none, none, none⟩,
     ⟨"https://a.mv", "A", some "/a-old.png", "ok", "T0", "og-image", none, none, none⟩]
    "https://a.mv"
    ⟨"https://a.mv", some "A", none, none, true, some "https://cdn.mv/l.png"⟩
    (by decide)

/-! ## C10 -/

/-- C10: every record emitted by `_process_site` — via the override branch,
a successful scrape, or the fallback chain — has status `ok` or `fallback`
and a non-empty `logo_url`; the status `error` and an absent `logo_url` are
unreachable in the orchestrator's per-site output. -/
theorem C10_output_invariant (pcfg : ProcConfig) (net : Network) (now : String)
    (site : Site) (existing : List LogoRecord) :
    ((process_site pcfg net now site existing).1.status = "ok" ∨
     (process_site pcfg net now site existing).1.status = "fallback") ∧
    ∃ s, (process_site pcfg net now site existing).1.logo_url = some s ∧ s ≠ "" := by
  by_cases hov : truthy site.fallback_logo_url = true
  · rw [process_site_override pcfg net now site existing hov]
    rcases (truthy_eq_true_iff _).mp hov with ⟨s, hs, hne⟩
    exact ⟨Or.inl rfl, s, by simp [hs], hne⟩
  · have hov' : truthy site.fallback_logo_url = false := by
      cases h : truthy site.fallback_logo_url
      · rfl
      · exact absurd h hov
    by_cases hc : ((extract_logo (net.fetch site.url) net.probe).status = "ok" &&
        truthy (extract_logo (net.fetch site.url) net.probe).logo_url) = true
    · cases hp : process_logo pcfg
          (net.download ((extract_logo (net.fetch site.url) net.probe).logo_url.getD ""))
          (strReplace (netloc_of site.url) "." "-") with
      | ok p =>
        rw [process_site_scrape_ok pcfg net now site existing p hov' hc hp]
        refine ⟨Or.inl rfl, p.cached_path, rfl, ?_⟩
        rw [process_logo_ok_path _ _ _ p hp]
        exact append_ne_empty_left _ _ (by decide)
      | error e =>
        obtain ⟨hlu, hst⟩ := process_site_fallback_eq pcfg net now site existing hov'
          (Or.inr (by rw [hp]; rfl))
        have hgf := get_fallback_logo_sound site (netloc_of site.url)
          (existing.find? (fun l => l.site_url = site.url))
        exact ⟨by rw [hst]; exact hgf.1, _, hlu, hgf.2⟩
    · obtain ⟨hlu, hst⟩ := process_site_fallback_eq pcfg net now site existing hov'
        (Or.inl hc)
      have hgf := get_fallback_logo_sound site (netloc_of site.url)
        (existing.find? (fun l => l.site_url = site.url))
      exact ⟨by rw [hst]; exact hgf.1, _, hlu, hgf.2⟩

end LogoGrid
